import Mathlib

/-!
Verification development for the LRP propagation-rule engine of
captum/attr/_utils/lrp_rules.py.

Tensors are modelled as flat lists of rationals; elementwise torch
operations become List.zipWith / List.map.  Devices are natural-number
keys.  The mutable per-device dictionaries of the rules become an explicit
Store value threaded through the hook functions.
-/

/-- A tensor: a flat list of rational entries. -/
abbrev Tensor := List ℚ

/-- A compute device (torch.device), modelled by a natural-number key. -/
abbrev Device := ℕ

/-- A tensor object as the hook machinery sees it: an object identity
(carrying the per-tensor hook_registered marker), the .data payload and
the .device of the tensor. -/
structure PyTensor where
  id : ℕ
  data : Tensor
  device : Device
deriving DecidableEq

/-- torch.sign on a rational entry. -/
def torchSign (x : ℚ) : ℚ := if 0 < x then 1 else if x < 0 then -1 else 0

/-- The in-place fixup from _backward_hook_output, line
sign[sign == 0] = 1, applied to one entry of the sign tensor. -/
def fixSign (s : ℚ) : ℚ := if s = 0 then 1 else s

/-- One entry of the effective denominator
outputs + sign * STABILITY_FACTOR built by _backward_hook_output. -/
def stabDenom (eps y : ℚ) : ℚ := y + fixSign (torchSign y) * eps

/-- The pair of relevance dictionaries of PropagationRule (lines 19 and 20
of lrp_rules.py): relevance_input maps a device to a single tensor or to a
list of tensors, relevance_output maps a device to a tensor.  In the source
both are class-level mutable dict literals; see instanceStore below for the
consequence of that placement. -/
structure Store where
  relevance_input : Device → Option (Tensor ⊕ List Tensor)
  relevance_output : Device → Option Tensor

/-- A store with no entries, the state of the class-level dict literals
before any hook has fired. -/
def emptyStore : Store := ⟨fun _ => none, fun _ => none⟩

/-- Item assignment relevance_input[device] = v. -/
def Store.setInput (s : Store) (d : Device) (v : Tensor ⊕ List Tensor) : Store :=
  ⟨fun e => if e = d then some v else s.relevance_input e, s.relevance_output⟩

/-- Item assignment relevance_output[device] = t. -/
def Store.setOutput (s : Store) (d : Device) (t : Tensor) : Store :=
  ⟨s.relevance_input, fun e => if e = d then some t else s.relevance_output e⟩

/-- Reading the per-device list that the multi-input branch of
_backward_hook_input appends to.  Modelled from the spec: the orchestrator
(repository code outside src/) re-initializes relevance_input with
empty-list defaults at the start of each forward pass, so a missing entry
stands for the empty list. -/
def defaultList (v : Option (Tensor ⊕ List Tensor)) : List Tensor :=
  match v with
  | some (Sum.inr l) => l
  | _ => []

namespace PropagationRule

/-- The closure produced by _create_backward_hook_input (lines 62 to 80),
closed over the captured original input data x: on an incoming gradient it
computes relevance = grad * inputs elementwise; with a single logical input
it overwrite-stores the relevance under the device of the gradient,
otherwise it appends the relevance to the per-device list.  The closure
returns the relevance (the same value is also stashed as grad.replace_out
for backward_hook_activation). -/
def _backward_hook_input (inputs : Tensor) (has_single_input : Bool)
    (grad : PyTensor) (s : Store) : Store × Tensor :=
  let relevance := List.zipWith (· * ·) grad.data inputs
  let s2 :=
    if has_single_input then s.setInput grad.device (Sum.inl relevance)
    else s.setInput grad.device
      (Sum.inr (defaultList (s.relevance_input grad.device) ++ [relevance]))
  (s2, relevance)

/-- The closure produced by _create_backward_hook_output (lines 83 to 93),
closed over the captured original output data: sign = torch.sign(outputs),
then sign[sign == 0] = 1, then
relevance = grad / (outputs + sign * STABILITY_FACTOR); the raw grad.data
is stored into relevance_output under the device of the gradient and the
stabilized ratio is returned as the effective upstream gradient. -/
def _backward_hook_output (STABILITY_FACTOR : ℚ) (outputs : Tensor)
    (grad : PyTensor) (s : Store) : Store × Tensor :=
  let sign := (outputs.map torchSign).map fixSign
  let relevance :=
    List.zipWith (· / ·) grad.data
      (List.zipWith (· + ·) outputs (sign.map (· * STABILITY_FACTOR)))
  (s.setOutput grad.device grad.data, relevance)

/-- The backward traversal firing the registered input hooks of one layer
in registration order: each fired pair carries the input data captured by
the closure at registration time together with the gradient tensor arriving
for that input. -/
def runInputHooks (has_single_input : Bool)
    (fired : List (Tensor × PyTensor)) (s : Store) : Store :=
  fired.foldl (fun st p => (_backward_hook_input p.1 has_single_input p.2 st).1) s

end PropagationRule

/-- Modelled from the spec: at the start of each forward pass the
orchestrator (repository code outside src/) re-initializes the
relevance_input mapping of every attached rule to empty. -/
def resetRelevanceInput (s : Store) : Store := ⟨fun _ => none, s.relevance_output⟩

/-- Stabilized-division pointwise form: the tensor returned by
_backward_hook_output is the elementwise quotient by stabDenom. -/
lemma backward_output_pointwise (eps : ℚ) (y g : Tensor) :
    List.zipWith (· / ·) g
      (List.zipWith (· + ·) y (((y.map torchSign).map fixSign).map (· * eps)))
      = List.zipWith (fun gi yi => gi / stabDenom eps yi) g y := by
  induction y generalizing g with
  | nil => cases g <;> rfl
  | cons a t ih =>
    cases g with
    | nil => rfl
    | cons b s =>
      simp only [List.map_cons, List.zipWith_cons_cons]
      rw [ih s]
      rfl

/-- The fixed sign never vanishes: it is minus one on negatives and plus
one elsewhere. -/
lemma fixSign_torchSign (y : ℚ) : fixSign (torchSign y) = if y < 0 then -1 else 1 := by
  rcases lt_trichotomy y 0 with h | h | h
  · simp [torchSign, fixSign, h, asymm h]
  · simp [torchSign, fixSign, h]
  · simp [torchSign, fixSign, h, asymm h]

/-- For a positive stability factor the effective denominator is nonzero. -/
lemma stabDenom_ne_zero (eps y : ℚ) (h : 0 < eps) : stabDenom eps y ≠ 0 := by
  unfold stabDenom
  rw [fixSign_torchSign]
  rcases lt_trichotomy y 0 with hy | hy | hy
  · rw [if_pos hy]; intro hc; nlinarith
  · subst hy; rw [if_neg (lt_irrefl 0)]; intro hc; nlinarith
  · rw [if_neg (asymm hy)]; intro hc; nlinarith

/-- For a positive stability factor and a nonzero output entry, the
effective denominator keeps the sign of the output entry. -/
lemma stabDenom_sign (eps y : ℚ) (h : 0 < eps) (hy : y ≠ 0) :
    torchSign (stabDenom eps y) = torchSign y := by
  unfold stabDenom
  rw [fixSign_torchSign]
  rcases lt_trichotomy y 0 with h1 | h1 | h1
  · rw [if_pos h1]
    unfold torchSign
    rw [if_neg (by linarith : ¬ (0:ℚ) < y + -1 * eps),
      if_pos (by linarith : y + -1 * eps < 0),
      if_neg (by linarith : ¬ (0:ℚ) < y), if_pos h1]
  · exact absurd h1 hy
  · rw [if_neg (asymm h1)]
    unfold torchSign
    rw [if_pos (by linarith : (0:ℚ) < y + 1 * eps), if_pos h1]

/-- Firing a run of input hooks appends one relevance entry per fired hook
to the per-device list, in firing order. -/
lemma runInputHooks_append (fired : List (Tensor × PyTensor)) (d : Device)
    (s : Store) (h : ∀ p ∈ fired, (p.2).device = d) :
    defaultList ((PropagationRule.runInputHooks false fired s).relevance_input d)
      = defaultList (s.relevance_input d)
        ++ fired.map fun p => List.zipWith (· * ·) (p.2).data p.1 := by
  induction fired generalizing s with
  | nil => simp [PropagationRule.runInputHooks]
  | cons p ps ih =>
    have hd : (p.2).device = d := h p (List.mem_cons_self p ps)
    have hrest : ∀ q ∈ ps, (q.2).device = d := fun q hq => h q (List.mem_cons_of_mem p hq)
    have hstep : PropagationRule.runInputHooks false (p :: ps) s
        = PropagationRule.runInputHooks false ps
            ((PropagationRule._backward_hook_input p.1 false p.2 s).1) := by
      simp [PropagationRule.runInputHooks]
    rw [hstep, ih _ hrest]
    have hlook : ((PropagationRule._backward_hook_input p.1 false p.2 s).1).relevance_input d
        = some (Sum.inr (defaultList (s.relevance_input (p.2).device)
            ++ [List.zipWith (· * ·) (p.2).data p.1])) := by
      simp [PropagationRule._backward_hook_input, Store.setInput, hd]
    rw [hlook, hd]
    simp [defaultList]

/-- C1: the output-gradient interceptor stores the raw gradient into
relevance_output keyed by the device of the gradient (other devices and the
input store untouched) and returns grad / (outputs + sign(outputs) * eps)
elementwise, where the sign of a zero entry is treated as plus one; for a
positive stability factor every effective denominator is nonzero and keeps
the sign of the corresponding output entry whenever that entry is nonzero. -/
theorem backward_hook_output_spec (eps : ℚ) (heps : 0 < eps) (y : Tensor)
    (g : PyTensor) (s : Store) :
    ((PropagationRule._backward_hook_output eps y g s).1.relevance_output g.device
        = some g.data)
    ∧ (∀ d, d ≠ g.device →
        (PropagationRule._backward_hook_output eps y g s).1.relevance_output d
          = s.relevance_output d)
    ∧ ((PropagationRule._backward_hook_output eps y g s).1.relevance_input
        = s.relevance_input)
    ∧ ((PropagationRule._backward_hook_output eps y g s).2
        = List.zipWith (fun gi yi => gi / stabDenom eps yi) g.data y)
    ∧ ∀ yi : ℚ, stabDenom eps yi ≠ 0
        ∧ (yi ≠ 0 → torchSign (stabDenom eps yi) = torchSign yi) := by
  refine ⟨?_, ?_, rfl, ?_, fun yi =>
    ⟨stabDenom_ne_zero eps yi heps, fun hyi => stabDenom_sign eps yi heps hyi⟩⟩
  · simp [PropagationRule._backward_hook_output, Store.setOutput]
  · intro d hd
    simp [PropagationRule._backward_hook_output, Store.setOutput, hd]
  · exact backward_output_pointwise eps y g.data

/-- Witness for C1 at a concrete input: stability factor one, outputs
containing a positive, a zero and a negative entry. -/
theorem backward_hook_output_spec_witness :
    (0:ℚ) < 1
    ∧ ((PropagationRule._backward_hook_output 1 [2, 0, -3]
          ⟨0, [4, 5, 6], 3⟩ emptyStore).1.relevance_output 3 = some [4, 5, 6])
    ∧ ((PropagationRule._backward_hook_output 1 [2, 0, -3]
          ⟨0, [4, 5, 6], 3⟩ emptyStore).2
        = List.zipWith (fun gi yi => gi / stabDenom 1 yi) [4, 5, 6] [2, 0, -3]) :=
  ⟨by norm_num,
    (backward_hook_output_spec 1 (by norm_num) [2, 0, -3] ⟨0, [4, 5, 6], 3⟩ emptyStore).1,
    (backward_hook_output_spec 1 (by norm_num) [2, 0, -3] ⟨0, [4, 5, 6], 3⟩
      emptyStore).2.2.2.1⟩

/-- C2: the input-gradient interceptor computes relevance as the elementwise
product of the incoming gradient with the captured original input and stores
it keyed by the device of the gradient: as a single tensor when the layer
had exactly one logical input, otherwise appended to the per-device list;
over a backward pass the list receives exactly one entry per fired hook, in
firing (and hence registration) order. -/
theorem backward_hook_input_spec (x : Tensor) (g : PyTensor) (s : Store) :
    ((PropagationRule._backward_hook_input x true g s).1.relevance_input g.device
        = some (Sum.inl (List.zipWith (· * ·) g.data x)))
    ∧ ((PropagationRule._backward_hook_input x true g s).2
        = List.zipWith (· * ·) g.data x)
    ∧ ((PropagationRule._backward_hook_input x false g s).1.relevance_input g.device
        = some (Sum.inr (defaultList (s.relevance_input g.device)
            ++ [List.zipWith (· * ·) g.data x])))
    ∧ ∀ (fired : List (Tensor × PyTensor)) (d : Device),
        (∀ p ∈ fired, (p.2).device = d) →
        defaultList ((PropagationRule.runInputHooks false fired
            (resetRelevanceInput s)).relevance_input d)
          = fired.map fun p => List.zipWith (· * ·) (p.2).data p.1 := by
  refine ⟨?_, rfl, ?_, ?_⟩
  · simp [PropagationRule._backward_hook_input, Store.setInput]
  · simp [PropagationRule._backward_hook_input, Store.setInput]
  · intro fired d h
    rw [runInputHooks_append fired d _ h]
    simp [resetRelevanceInput, defaultList]

/-- Witness for C2 at concrete inputs: a single-input store, a multi-input
append, and a two-hook backward pass on device 0. -/
theorem backward_hook_input_spec_witness :
    ((PropagationRule._backward_hook_input [3] true ⟨0, [4], 0⟩
        emptyStore).1.relevance_input 0 = some (Sum.inl (List.zipWith (· * ·) [4] [3])))
    ∧ (defaultList ((PropagationRule.runInputHooks false
          [([3], ⟨0, [4], 0⟩), ([5], ⟨1, [6], 0⟩)]
          (resetRelevanceInput emptyStore)).relevance_input 0)
        = [List.zipWith (· * ·) [4] [3], List.zipWith (· * ·) [6] [5]]) :=
  ⟨(backward_hook_input_spec [3] ⟨0, [4], 0⟩ emptyStore).1,
    (backward_hook_input_spec [3] ⟨0, [4], 0⟩ emptyStore).2.2.2
      [([3], ⟨0, [4], 0⟩), ([5], ⟨1, [6], 0⟩)] 0 (by decide)⟩

/-- C6: starting from the spec-modelled re-initialization of relevance_input
at the beginning of each forward pass, a multi-input backward pass leaves
exactly one list entry per fired input hook, and a second pass (again after
re-initialization) holds only the entries of the second pass, never an
accumulation across passes. -/
theorem relevance_input_reset_per_pass (fired1 fired2 : List (Tensor × PyTensor))
    (d : Device) (s : Store)
    (h1 : ∀ p ∈ fired1, (p.2).device = d) (h2 : ∀ p ∈ fired2, (p.2).device = d) :
    ((defaultList ((PropagationRule.runInputHooks false fired1
        (resetRelevanceInput s)).relevance_input d)).length = fired1.length)
    ∧ (defaultList ((PropagationRule.runInputHooks false fired2
          (resetRelevanceInput (PropagationRule.runInputHooks false fired1
            (resetRelevanceInput s)))).relevance_input d)
        = fired2.map fun p => List.zipWith (· * ·) (p.2).data p.1)
    ∧ ((defaultList ((PropagationRule.runInputHooks false fired2
          (resetRelevanceInput (PropagationRule.runInputHooks false fired1
            (resetRelevanceInput s)))).relevance_input d)).length = fired2.length) := by
  have key : ∀ (fs : List (Tensor × PyTensor)) (t : Store),
      (∀ p ∈ fs, (p.2).device = d) →
      defaultList ((PropagationRule.runInputHooks false fs
          (resetRelevanceInput t)).relevance_input d)
        = fs.map fun p => List.zipWith (· * ·) (p.2).data p.1 := by
    intro fs t hfs
    rw [runInputHooks_append fs d _ hfs]
    simp [resetRelevanceInput, defaultList]
  refine ⟨?_, key fired2 _ h2, ?_⟩
  · rw [key fired1 s h1, List.length_map]
  · rw [key fired2 _ h2, List.length_map]

/-- Witness for C6 at concrete inputs: a two-hook first pass followed by a
one-hook second pass on device 0. -/
theorem relevance_input_reset_per_pass_witness :
    ((defaultList ((PropagationRule.runInputHooks false
        [([3], ⟨0, [4], 0⟩), ([5], ⟨1, [6], 0⟩)]
        (resetRelevanceInput emptyStore)).relevance_input 0)).length = 2)
    ∧ (defaultList ((PropagationRule.runInputHooks false [([7], ⟨2, [8], 0⟩)]
          (resetRelevanceInput (PropagationRule.runInputHooks false
            [([3], ⟨0, [4], 0⟩), ([5], ⟨1, [6], 0⟩)]
            (resetRelevanceInput emptyStore)))).relevance_input 0)
        = [List.zipWith (· * ·) [8] [7]]) := by
  have h := relevance_input_reset_per_pass
    [([3], ⟨0, [4], 0⟩), ([5], ⟨1, [6], 0⟩)] [([7], ⟨2, [8], 0⟩)] 0 emptyStore
    (by decide) (by decide)
  exact ⟨h.1, h.2.1⟩

namespace PropagationRule

/-- Result of forward_hook: the _has_single_input flag, the input hook
handles in registration order (each recording the id of the hooked tensor
and the input data captured by its closure), the output hook (recording the
captured output data), the set of tensor ids now carrying the
hook_registered marker, and the data of the returned cloned output. -/
structure ForwardHookResult where
  has_single_input : Bool
  handle_input_hooks : List (ℕ × Tensor)
  handle_output_hook : Tensor
  hooked : List ℕ
  returned : Tensor

/-- The registration loop of forward_hook (lines 37 to 41): walk the input
tensors in order, skip any tensor already carrying the hook_registered
marker, otherwise register a backward hook capturing input.data and set the
marker on the tensor object.  Returns the final marker set together with
the handles in registration order. -/
def registerInputHooks : List PyTensor → List ℕ → List ℕ × List (ℕ × Tensor)
  | [], hooked => (hooked, [])
  | t :: ts, hooked =>
    if t.id ∈ hooked then registerInputHooks ts hooked
    else
      let rest := registerInputHooks ts (t.id :: hooked)
      (rest.1, (t.id, t.data) :: rest.2)

/-- forward_hook (lines 26 to 45): _format_tensor_into_tuples has already
turned the inputs into a tuple, modelled as a list; _has_single_input is
len(inputs) == 1; one backward hook is registered per input tensor not yet
carrying the hook_registered marker; one backward hook is registered on the
output tensor, capturing outputs.data; the hook returns outputs.clone(), a
fresh tensor holding the same values. -/
def forward_hook (inputs : List PyTensor) (outputs : PyTensor)
    (hooked : List ℕ) : ForwardHookResult :=
  let r := registerInputHooks inputs hooked
  { has_single_input := inputs.length == 1
    handle_input_hooks := r.2
    handle_output_hook := outputs.data
    hooked := r.1
    returned := outputs.data }

end PropagationRule

/-- Registration-loop invariants: hooks target pairwise distinct tensors,
every hooked tensor was an unmarked input whose captured data is its own,
and every unmarked input ends up hooked. -/
lemma registerInputHooks_spec (ts : List PyTensor) (hooked : List ℕ) :
    (∀ p ∈ (PropagationRule.registerInputHooks ts hooked).2,
        p.1 ∉ hooked ∧ ∃ t ∈ ts, t.id = p.1 ∧ t.data = p.2)
    ∧ (((PropagationRule.registerInputHooks ts hooked).2.map Prod.fst).Nodup)
    ∧ (∀ t ∈ ts, t.id ∉ hooked →
        t.id ∈ (PropagationRule.registerInputHooks ts hooked).2.map Prod.fst) := by
  induction ts generalizing hooked with
  | nil => simp [PropagationRule.registerInputHooks]
  | cons t ts ih =>
    by_cases hm : t.id ∈ hooked
    · have hr : PropagationRule.registerInputHooks (t :: ts) hooked
          = PropagationRule.registerInputHooks ts hooked := by
        simp [PropagationRule.registerInputHooks, hm]
      rw [hr]
      obtain ⟨ha, hb, hc⟩ := ih hooked
      refine ⟨?_, hb, ?_⟩
      · intro p hp
        obtain ⟨h1, u, hu, h2, h3⟩ := ha p hp
        exact ⟨h1, u, List.mem_cons_of_mem t hu, h2, h3⟩
      · intro u hu hnu
        rcases List.mem_cons.mp hu with rfl | hu2
        · exact absurd hm hnu
        · exact hc u hu2 hnu
    · have hr : PropagationRule.registerInputHooks (t :: ts) hooked
          = ((PropagationRule.registerInputHooks ts (t.id :: hooked)).1,
            (t.id, t.data) :: (PropagationRule.registerInputHooks ts (t.id :: hooked)).2) := by
        simp [PropagationRule.registerInputHooks, hm]
      rw [hr]
      obtain ⟨ha, hb, hc⟩ := ih (t.id :: hooked)
      refine ⟨?_, ?_, ?_⟩
      · intro p hp
        rcases List.mem_cons.mp hp with rfl | hp2
        · exact ⟨hm, t, List.mem_cons_self t ts, rfl, rfl⟩
        · obtain ⟨h1, u, hu, h2, h3⟩ := ha p hp2
          exact ⟨fun hin => h1 (List.mem_cons_of_mem _ hin),
            u, List.mem_cons_of_mem t hu, h2, h3⟩
      · simp only [List.map_cons, List.nodup_cons]
        refine ⟨?_, hb⟩
        intro hmem
        obtain ⟨p, hp, hpe⟩ := List.mem_map.mp hmem
        exact (ha p hp).1 (hpe ▸ List.mem_cons_self _ _)
      · intro u hu hnu
        rcases List.mem_cons.mp hu with rfl | hu2
        · exact List.mem_cons_self _ _
        · by_cases he : u.id = t.id
          · exact he ▸ List.mem_cons_self _ _
          · have := hc u hu2 (by
              intro hin
              rcases List.mem_cons.mp hin with h | h
              · exact he h
              · exact hnu h)
            exact List.mem_cons_of_mem _ this

/-- C7: forward_hook registers exactly one gradient-interception hook per
distinct input tensor not already carrying the hook_registered marker
(pairwise distinct targets, every unmarked input covered, every handle
backed by an unmarked input whose data it captured), registers exactly one
hook on the output tensor capturing the output data, and returns a copy
carrying the same values as the original output tensor. -/
theorem forward_hook_registration (inputs : List PyTensor) (outputs : PyTensor)
    (hooked : List ℕ) :
    (((PropagationRule.forward_hook inputs outputs hooked).handle_input_hooks.map
        Prod.fst).Nodup)
    ∧ (∀ p ∈ (PropagationRule.forward_hook inputs outputs hooked).handle_input_hooks,
        p.1 ∉ hooked ∧ ∃ t ∈ inputs, t.id = p.1 ∧ t.data = p.2)
    ∧ (∀ t ∈ inputs, t.id ∉ hooked →
        t.id ∈ (PropagationRule.forward_hook inputs outputs
          hooked).handle_input_hooks.map Prod.fst)
    ∧ ((PropagationRule.forward_hook inputs outputs hooked).handle_output_hook
        = outputs.data)
    ∧ ((PropagationRule.forward_hook inputs outputs hooked).returned = outputs.data)
    ∧ ((PropagationRule.forward_hook inputs outputs hooked).has_single_input
        = (inputs.length == 1)) := by
  obtain ⟨ha, hb, hc⟩ := registerInputHooks_spec inputs hooked
  exact ⟨hb, ha, hc, rfl, rfl, rfl⟩

/-- Witness for C7 at a concrete input: the tensor with id 0 appears in two
argument positions and is hooked once; the tensor with id 1 already carries
the marker and is not hooked again. -/
theorem forward_hook_registration_witness :
    (((PropagationRule.forward_hook [⟨0, [1], 0⟩, ⟨1, [2], 0⟩, ⟨0, [1], 0⟩]
        ⟨9, [7], 0⟩ [1]).handle_input_hooks.map Prod.fst).Nodup)
    ∧ ((PropagationRule.forward_hook [⟨0, [1], 0⟩, ⟨1, [2], 0⟩, ⟨0, [1], 0⟩]
        ⟨9, [7], 0⟩ [1]).returned = [7]) :=
  ⟨(forward_hook_registration [⟨0, [1], 0⟩, ⟨1, [2], 0⟩, ⟨0, [1], 0⟩]
      ⟨9, [7], 0⟩ [1]).1,
    (forward_hook_registration [⟨0, [1], 0⟩, ⟨1, [2], 0⟩, ⟨0, [1], 0⟩]
      ⟨9, [7], 0⟩ [1]).2.2.2.2.1⟩

/-- A layer (torch.nn.Module) as forward_hook_weights and the weight
transforms see it: an identity (quoted by the layer-reuse error message),
an optional weight parameter, an optional bias attribute which may itself
hold None, and the activations mapping, absent when the attribute was never
created. -/
structure NNModule where
  id : ℕ
  weight : Option Tensor
  bias : Option (Option Tensor)
  activations : Option (Device → Option (List Tensor))

/-- The exceptions forward_hook_weights can raise: the RuntimeError naming
the module that is used more than once, the AttributeError from writing
through a missing activations attribute, and the IndexError from indexing
an empty input tuple. -/
inductive PyError where
  | layerReuse : ℕ → PyError
  | attributeError : PyError
  | indexError : PyError
deriving DecidableEq

/-- Item assignment module.activations[device] = value. -/
def cacheActivations (acts : Device → Option (List Tensor)) (d : Device)
    (v : List Tensor) : Device → Option (List Tensor) :=
  fun e => if e = d then some v else acts e

/-- The module after the write module.activations[device] = tuple of the
current input data. -/
def withCachedActivations (m : NNModule) (acts : Device → Option (List Tensor))
    (d : Device) (inputs : List PyTensor) : NNModule :=
  { m with activations := some (cacheActivations acts d (inputs.map PyTensor.data)) }

namespace PropagationRule

/-- forward_hook_weights (lines 96 to 107): take the device of the first
input; raise the layer-reuse RuntimeError when the module has an
activations attribute that already holds an entry for that device;
otherwise write the tuple of input data into module.activations (an
AttributeError when the attribute is missing) and hand the module to the
rule-specific _manipulate_weights, passed here as the function man. -/
def forward_hook_weights (man : NNModule → NNModule) (m : NNModule)
    (inputs : List PyTensor) : Except PyError NNModule :=
  match inputs.head? with
  | none => Except.error PyError.indexError
  | some t0 =>
    match m.activations with
    | some acts =>
      if (acts t0.device).isSome then Except.error (PyError.layerReuse m.id)
      else Except.ok (man (withCachedActivations m acts t0.device inputs))
    | none => Except.error PyError.attributeError

end PropagationRule

/-- C3: on a module carrying an activations mapping, forward_hook_weights
raises the layer-reuse error naming the module exactly when the mapping
already holds an entry for the device of the inputs; when it does not
raise, it caches the tuple of current input data under that device and then
applies the rule-specific weight transform to the updated module. -/
theorem forward_hook_weights_reuse_check (man : NNModule → NNModule)
    (m : NNModule) (acts : Device → Option (List Tensor))
    (inputs : List PyTensor) (t0 : PyTensor) (h0 : inputs.head? = some t0)
    (hA : m.activations = some acts) :
    (PropagationRule.forward_hook_weights man m inputs
        = Except.error (PyError.layerReuse m.id) ↔ (acts t0.device).isSome = true)
    ∧ (acts t0.device = none →
        PropagationRule.forward_hook_weights man m inputs
          = Except.ok (man (withCachedActivations m acts t0.device inputs))) := by
  unfold PropagationRule.forward_hook_weights
  rw [h0, hA]
  cases hval : acts t0.device with
  | none => simp [hval]
  | some v => simp [hval]

/-- Witness for C3 at concrete inputs: the same one-input module once with
an occupied activations entry for device 0 (the error fires) and once with
a free entry (the cache-and-transform path succeeds). -/
theorem forward_hook_weights_reuse_check_witness :
    (PropagationRule.forward_hook_weights id
        ⟨7, none, none, some fun d => if d = 0 then some [[1]] else none⟩
        [⟨0, [2], 0⟩]
      = Except.error (PyError.layerReuse 7))
    ∧ (PropagationRule.forward_hook_weights id
        ⟨7, none, none, some fun _ => none⟩ [⟨0, [2], 0⟩]
      = Except.ok (id (withCachedActivations
          ⟨7, none, none, some fun _ => none⟩ (fun _ => none) 0 [⟨0, [2], 0⟩]))) :=
  ⟨(forward_hook_weights_reuse_check id
      ⟨7, none, none, some fun d => if d = 0 then some [[1]] else none⟩
      (fun d => if d = 0 then some [[1]] else none) [⟨0, [2], 0⟩]
      ⟨0, [2], 0⟩ rfl rfl).1.mpr rfl,
    (forward_hook_weights_reuse_check id
      ⟨7, none, none, some fun _ => none⟩ (fun _ => none) [⟨0, [2], 0⟩]
      ⟨0, [2], 0⟩ rfl rfl).2 rfl⟩

/-- C10: forward_hook_weights presupposes the activations attribute: on a
module without it the call fails with an AttributeError (not the
layer-reuse error) before anything is cached, while on a module whose
activations mapping lacks an entry for the device of the inputs the call
always succeeds. -/
theorem forward_hook_weights_requires_activations (man : NNModule → NNModule)
    (m : NNModule) (inputs : List PyTensor) (t0 : PyTensor)
    (h0 : inputs.head? = some t0) :
    (m.activations = none →
        PropagationRule.forward_hook_weights man m inputs
          = Except.error PyError.attributeError)
    ∧ (∀ acts, m.activations = some acts → acts t0.device = none →
        ∃ m2, PropagationRule.forward_hook_weights man m inputs = Except.ok m2) := by
  constructor
  · intro hA
    unfold PropagationRule.forward_hook_weights
    rw [h0, hA]
  · intro acts hA hfree
    refine ⟨man (withCachedActivations m acts t0.device inputs), ?_⟩
    unfold PropagationRule.forward_hook_weights
    rw [h0, hA]
    simp [hfree]

/-- Witness for C10 at concrete inputs: a module without the activations
attribute fails with AttributeError, one with a free entry succeeds. -/
theorem forward_hook_weights_requires_activations_witness :
    (PropagationRule.forward_hook_weights id ⟨3, none, none, none⟩ [⟨0, [2], 1⟩]
        = Except.error PyError.attributeError)
    ∧ (∃ m2, PropagationRule.forward_hook_weights id
        ⟨4, none, none, some fun _ => none⟩ [⟨0, [2], 1⟩] = Except.ok m2) :=
  ⟨(forward_hook_weights_requires_activations id ⟨3, none, none, none⟩
      [⟨0, [2], 1⟩] ⟨0, [2], 1⟩ rfl).1 rfl,
    (forward_hook_weights_requires_activations id
      ⟨4, none, none, some fun _ => none⟩ [⟨0, [2], 1⟩] ⟨0, [2], 1⟩ rfl).2
      (fun _ => none) rfl rfl⟩

/-- The trailing bias code shared verbatim by GammaRule._manipulate_weights
and Alpha1_Beta0_Rule._manipulate_weights: when set_bias_to_zero is set and
the module has a bias attribute that is not None, the bias is replaced by
torch.zeros_like of itself. -/
def zeroBiasIfSet (set_bias_to_zero : Bool) (m : NNModule) : NNModule :=
  match set_bias_to_zero, m.bias with
  | true, some (some b) => { m with bias := some (some (b.map fun _ => 0)) }
  | _, _ => m

lemma zeroBiasIfSet_weight (sb : Bool) (m : NNModule) :
    (zeroBiasIfSet sb m).weight = m.weight := by
  unfold zeroBiasIfSet
  rcases sb with _ | _ <;> rcases hb : m.bias with _ | b
  · rfl
  · rfl
  · rfl
  · rcases b with _ | b2 <;> rfl

namespace GammaRule

/-- GammaRule._manipulate_weights (lines 162 to 170): when the module has a
weight, it becomes weight + gamma * weight.clamp at min 0, elementwise;
then the shared bias code runs. -/
def _manipulate_weights (gamma : ℚ) (set_bias_to_zero : Bool)
    (m : NNModule) : NNModule :=
  zeroBiasIfSet set_bias_to_zero
    (match m.weight with
     | some w =>
       { m with weight := some (List.zipWith (· + ·) w ((w.map fun x => max x 0).map fun x => gamma * x)) }
     | none => m)

end GammaRule

namespace Alpha1_Beta0_Rule

/-- Alpha1_Beta0_Rule._manipulate_weights (lines 188 to 196): when the
module has a weight, it becomes weight.clamp at min 0, elementwise; then
the shared bias code runs. -/
def _manipulate_weights (set_bias_to_zero : Bool) (m : NNModule) : NNModule :=
  zeroBiasIfSet set_bias_to_zero
    (match m.weight with
     | some w => { m with weight := some (w.map fun x => max x 0) }
     | none => m)

end Alpha1_Beta0_Rule

/-- The Gamma update written as one elementwise map. -/
lemma gamma_zipWith_as_map (gamma : ℚ) (w : Tensor) :
    List.zipWith (· + ·) w (List.map ((fun x => gamma * x) ∘ fun x => max x 0) w)
      = w.map fun x => x + gamma * max x 0 := by
  induction w with
  | nil => rfl
  | cons a t ih =>
    simp only [List.map_cons, List.zipWith_cons_cons, ih, Function.comp_apply]

/-- The weight component of the Gamma transform as one map. -/
lemma gamma_weight_map (gamma : ℚ) (sb : Bool) (m : NNModule) :
    (GammaRule._manipulate_weights gamma sb m).weight
      = m.weight.map fun w => w.map fun x => x + gamma * max x 0 := by
  unfold GammaRule._manipulate_weights
  rw [zeroBiasIfSet_weight]
  cases hw2 : m.weight with
  | none => simp [hw2]
  | some w => simp [hw2, gamma_zipWith_as_map]

/-- Scalar form of the Gamma inequality: the update only ever increases a
weight entry, strictly so exactly on the positive entries. -/
lemma gamma_pointwise (gamma x : ℚ) (hg : 0 < gamma) :
    x ≤ x + gamma * max x 0 ∧ (x + gamma * max x 0 = x ↔ x ≤ 0) := by
  rcases le_or_lt x 0 with h | h
  · rw [max_eq_right h]
    constructor
    · nlinarith
    · constructor
      · intro _; exact h
      · intro _; ring
  · rw [max_eq_left h.le]
    constructor
    · nlinarith
    · constructor
      · intro he; nlinarith
      · intro hle; exact absurd hle (not_le.mpr h)

/-- C8: for a positive gamma, the Gamma rule maps a weight tensor w to
w + gamma * max(w, 0) elementwise, and the transformed weight dominates w
elementwise with equality exactly at the entries that are at most zero. -/
theorem gammaRule_weight_transform (gamma : ℚ) (hg : 0 < gamma)
    (set_bias_to_zero : Bool) (m : NNModule) (w : Tensor)
    (hw : m.weight = some w) :
    ((GammaRule._manipulate_weights gamma set_bias_to_zero m).weight
        = some (w.map fun x => x + gamma * max x 0))
    ∧ List.Forall₂ (fun a b => a ≤ b ∧ (b = a ↔ a ≤ 0)) w
        (w.map fun x => x + gamma * max x 0) := by
  constructor
  · rw [gamma_weight_map, hw]
    rfl
  · rw [List.forall₂_map_right_iff, List.forall₂_same]
    intro x _
    exact gamma_pointwise gamma x hg

/-- Witness for C8 at the default gamma of one quarter and a weight holding
a negative, a zero and a positive entry. -/
theorem gammaRule_weight_transform_witness :
    (0:ℚ) < 1/4
    ∧ ((GammaRule._manipulate_weights (1/4) false
          ⟨0, some [-1, 0, 2], none, none⟩).weight
        = some ([-1, 0, 2].map fun x => x + (1/4) * max x 0)) :=
  ⟨by norm_num,
    (gammaRule_weight_transform (1/4) (by norm_num) false
      ⟨0, some [-1, 0, 2], none, none⟩ [-1, 0, 2] rfl).1⟩

/-- The weight component of the Alpha1-Beta0 transform as one map. -/
lemma alpha_weight_map (sb : Bool) (m : NNModule) :
    (Alpha1_Beta0_Rule._manipulate_weights sb m).weight
      = m.weight.map fun w => w.map fun x => max x 0 := by
  unfold Alpha1_Beta0_Rule._manipulate_weights
  rw [zeroBiasIfSet_weight]
  cases hw2 : m.weight with
  | none => simp [hw2]
  | some w => simp [hw2]

/-- C9: the Alpha1-Beta0 rule maps a weight tensor w to max(w, 0)
elementwise, a pure clamp, and the transform is idempotent on the weight:
applying it twice yields the same weight as applying it once. -/
theorem alpha1_beta0_weight_transform (set_bias_to_zero : Bool)
    (m : NNModule) (w : Tensor) (hw : m.weight = some w) :
    ((Alpha1_Beta0_Rule._manipulate_weights set_bias_to_zero m).weight
        = some (w.map fun x => max x 0))
    ∧ ((Alpha1_Beta0_Rule._manipulate_weights set_bias_to_zero
          (Alpha1_Beta0_Rule._manipulate_weights set_bias_to_zero m)).weight
        = (Alpha1_Beta0_Rule._manipulate_weights set_bias_to_zero m).weight) := by
  have h1 : (Alpha1_Beta0_Rule._manipulate_weights set_bias_to_zero m).weight
      = some (w.map fun x => max x 0) := by
    rw [alpha_weight_map, hw]
    rfl
  refine ⟨h1, ?_⟩
  rw [alpha_weight_map, h1, Option.map_some', List.map_map]
  congr 1
  apply List.map_congr_left
  intro x _
  show ((x ⊔ 0) ⊔ 0) = x ⊔ 0
  rw [max_assoc, max_self]

/-- Witness for C9 on a weight holding a negative, a zero and a positive
entry, with bias zeroing enabled. -/
theorem alpha1_beta0_weight_transform_witness :
    ((Alpha1_Beta0_Rule._manipulate_weights true
        ⟨0, some [-1, 0, 2], some (some [5]), none⟩).weight
      = some ([-1, 0, 2].map fun x => max x 0))
    ∧ ((Alpha1_Beta0_Rule._manipulate_weights true
          (Alpha1_Beta0_Rule._manipulate_weights true
            ⟨0, some [-1, 0, 2], some (some [5]), none⟩)).weight
        = (Alpha1_Beta0_Rule._manipulate_weights true
            ⟨0, some [-1, 0, 2], some (some [5]), none⟩).weight) :=
  ⟨(alpha1_beta0_weight_transform true
      ⟨0, some [-1, 0, 2], some (some [5]), none⟩ [-1, 0, 2] rfl).1,
    (alpha1_beta0_weight_transform true
      ⟨0, some [-1, 0, 2], some (some [5]), none⟩ [-1, 0, 2] rfl).2⟩

namespace IdentityRule

/-- The overridden closure from IdentityRule._create_backward_hook_input
(lines 207 to 213): it ignores the captured inputs and the incoming
gradient value and returns the stored output relevance for the device of
the gradient, without writing anything to the store. -/
def _backward_hook_input (grad : PyTensor) (s : Store) : Option Tensor :=
  s.relevance_output grad.device

end IdentityRule

/-- One forward+backward pass over a layer attached to the Identity rule:
during backward the hook on the output tensor fires first (storing the raw
output gradient and returning the stabilized ratio), then the gradient
reaches the layer input, where the overridden input hook fires.  The result
is the final store together with the value the input hook hands upstream. -/
def identityPass (STABILITY_FACTOR : ℚ) (outputs : Tensor)
    (gout gin : PyTensor) (s : Store) : Store × Option Tensor :=
  let r := PropagationRule._backward_hook_output STABILITY_FACTOR outputs gout s
  (r.1, IdentityRule._backward_hook_input gin r.1)

/-- Counterexample to C4: after an Identity-rule pass on a shape-preserving
layer (output data of length one, matching input), relevance_input at the
device is still unset while relevance_output holds the raw gradient, so the
two entries are not equal. -/
theorem identity_input_store_not_written :
    (identityPass 1 [2] ⟨0, [5], 0⟩ ⟨1, [7], 0⟩ emptyStore).1.relevance_input 0
      ≠ Option.map Sum.inl
          ((identityPass 1 [2] ⟨0, [5], 0⟩ ⟨1, [7], 0⟩ emptyStore).1.relevance_output 0) := by
  simp [identityPass, IdentityRule._backward_hook_input,
    PropagationRule._backward_hook_output, Store.setOutput, emptyStore]

/-- C4 as amended: the overridden input interceptor returns the previously
stored output relevance for the device (the raw output gradient of the same
pass) as the relevance handed upstream, bypassing the gradient times
activation formula, while relevance_input itself is left untouched by the
pass. -/
theorem identity_rule_pass_through (eps : ℚ) (y : Tensor) (gout gin : PyTensor)
    (s : Store) (hdev : gin.device = gout.device) :
    ((identityPass eps y gout gin s).1.relevance_input = s.relevance_input)
    ∧ ((identityPass eps y gout gin s).1.relevance_output gout.device
        = some gout.data)
    ∧ ((identityPass eps y gout gin s).2 = some gout.data) := by
  refine ⟨rfl, ?_, ?_⟩
  · simp [identityPass, PropagationRule._backward_hook_output, Store.setOutput]
  · simp [identityPass, IdentityRule._backward_hook_input,
      PropagationRule._backward_hook_output, Store.setOutput, hdev]

/-- Witness for the amended C4 at a concrete pass on device 0. -/
theorem identity_rule_pass_through_witness :
    ((identityPass 1 [2] ⟨0, [5], 0⟩ ⟨1, [7], 0⟩ emptyStore).1.relevance_input
        = emptyStore.relevance_input)
    ∧ ((identityPass 1 [2] ⟨0, [5], 0⟩ ⟨1, [7], 0⟩ emptyStore).2 = some [5]) :=
  ⟨(identity_rule_pass_through 1 [2] ⟨0, [5], 0⟩ ⟨1, [7], 0⟩ emptyStore rfl).1,
    (identity_rule_pass_through 1 [2] ⟨0, [5], 0⟩ ⟨1, [7], 0⟩ emptyStore rfl).2.2⟩

/-- A concrete rule object as built by EpsilonRule.__init__: it holds only
the per-instance hyperparameter (the overridden STABILITY_FACTOR); the
relevance dictionaries are NOT created here.  In the source they are dict
literals in the class body of PropagationRule (lines 19 and 20) and no
method of this file ever rebinds them on an instance, so attribute lookup
resolves self.relevance_input and self.relevance_output on every instance
to the same two class-level objects, which item assignment mutates in
place. -/
structure EpsilonRuleInstance where
  instanceId : ℕ
  epsilon : ℚ

/-- Attribute lookup self.relevance_input / self.relevance_output on a rule
instance: there is no instance attribute, so the lookup falls through to
the single class-level store, whichever instance is asked. -/
def instanceStore (classStore : Store) (_r : EpsilonRuleInstance) : Store :=
  classStore

/-- Firing the output backward hook created by instance r: it reads and
writes the store reached through self, that is, the shared class store. -/
def fireOutputHook (classStore : Store) (r : EpsilonRuleInstance)
    (outputs : Tensor) (grad : PyTensor) : Store × Tensor :=
  PropagationRule._backward_hook_output r.epsilon outputs grad
    (instanceStore classStore r)

/-- C5 evaluated on the code: two distinct rule instances are created; the
output hook of instance 1 fires once; the write is then observable through
the store of instance 2, because both instances resolve their relevance
dictionaries to the same class-level objects. -/
theorem shared_class_store_cross_instance :
    ((instanceStore
        (fireOutputHook emptyStore ⟨1, 1/2⟩ [2] ⟨0, [5], 0⟩).1
        ⟨2, 1/3⟩).relevance_output 0 = some [5])
    ∧ ((instanceStore emptyStore ⟨2, 1/3⟩).relevance_output 0 = none) := by
  constructor
  · simp [instanceStore, fireOutputHook, PropagationRule._backward_hook_output,
      Store.setOutput, emptyStore]
  · rfl
